import Mathlib

/-!
Verification of the AQI forecasting pipeline (MLOps-AQI-Project).

This file gives a shallow embedding of the pipeline's core dataframe
transformations and service logic, and proves the frozen claims about them:

* `Model Serving/service.py` — the `forecast` endpoint: timestamp generation,
  error handling, behaviour when `last_timestamp` is omitted.
* `Model Training/predict_next_3days.py` — candidate fitting loop, best-model
  selection by validation RMSE, abort when no candidate fits.
* `Data Preprocessing/run_preprocessing.py` — incremental lag-feature
  construction over the concatenated (previous + new) series.
* `Data Preprocessing/data_quality_check.py` — the quality gate.
* `Feature Selection/feature_selection.py` — watermark-based snapshot append.
* `fetch_daily_data.py` — ingestion merge (dedup + sort invariants).

Numeric columns are embedded as exact rationals, timestamps as naturals
(hours) or a calendar structure where string formatting matters, missing
values as `Option`, and raised exceptions as `Except`.
-/

namespace AQI

/-! ## Calendar timestamps (for `service.py` date handling)

`service.py` parses `last_timestamp` with `datetime.strptime(s, "%Y-%m-%d
%H:%M:%S")` and emits dates with `strftime` of the same format, stepping by
`timedelta(hours=1)`. We embed Gregorian calendar timestamps at second
granularity. -/

structure DateTime where
  year : Nat
  month : Nat
  day : Nat
  hour : Nat
  minute : Nat
  second : Nat
deriving DecidableEq, Repr

def isLeapYear (y : Nat) : Bool :=
  (y % 4 == 0 && y % 100 != 0) || y % 400 == 0

def daysInMonth (y m : Nat) : Nat :=
  if m = 2 then (if isLeapYear y then 29 else 28)
  else if m = 4 ∨ m = 6 ∨ m = 9 ∨ m = 11 then 30
  else 31

/-- One `timedelta(hours=1)` step, with day/month/year rollover. -/
def addHour (t : DateTime) : DateTime :=
  if t.hour + 1 < 24 then { t with hour := t.hour + 1 }
  else if t.day + 1 ≤ daysInMonth t.year t.month then
    { t with hour := 0, day := t.day + 1 }
  else if t.month + 1 ≤ 12 then
    { t with hour := 0, day := 1, month := t.month + 1 }
  else
    { t with hour := 0, day := 1, month := 1, year := t.year + 1 }

def addHours (n : Nat) (t : DateTime) : DateTime := addHour^[n] t

def digitChar (n : Nat) : Char := Char.ofNat (48 + n % 10)

def pad2 (n : Nat) : List Char := [digitChar (n / 10), digitChar n]

def pad4 (n : Nat) : List Char :=
  [digitChar (n / 1000), digitChar (n / 100), digitChar (n / 10), digitChar n]

/-- `strftime("%Y-%m-%d %H:%M:%S")`. -/
def fmtDateTime (t : DateTime) : String :=
  String.mk (pad4 t.year ++ '-' :: pad2 t.month ++ '-' :: pad2 t.day ++
    ' ' :: pad2 t.hour ++ ':' :: pad2 t.minute ++ ':' :: pad2 t.second)

def splitOnChar (c : Char) : List Char → List (List Char)
  | [] => [[]]
  | x :: xs =>
    let rest := splitOnChar c xs
    if x = c then [] :: rest
    else
      match rest with
      | [] => [[x]]
      | r :: rs => (x :: r) :: rs

def digitsToNat (ds : List Char) : Option Nat :=
  if ds.isEmpty then none
  else if ds.all (fun c => 48 ≤ c.toNat && c.toNat ≤ 57)
  then some (ds.foldl (fun acc c => acc * 10 + (c.toNat - 48)) 0)
  else none

/-- `datetime.strptime(s, "%Y-%m-%d %H:%M:%S")`; raises (`Except.error`) when
the string does not match the format. -/
def parseDateTime (s : String) : Except String DateTime :=
  match splitOnChar ' ' s.data with
  | [datePart, timePart] =>
    match splitOnChar '-' datePart, splitOnChar ':' timePart with
    | [ys, mos, ds], [hs, mins, secs] =>
      match digitsToNat ys, digitsToNat mos, digitsToNat ds,
            digitsToNat hs, digitsToNat mins, digitsToNat secs with
      | some y, some mo, some d, some h, some mi, some se =>
        if 1 ≤ mo ∧ mo ≤ 12 ∧ 1 ≤ d ∧ d ≤ daysInMonth y mo ∧
           h < 24 ∧ mi < 60 ∧ se < 60
        then .ok ⟨y, mo, d, h, mi, se⟩
        else .error "time data does not match format"
      | _, _, _, _, _, _ => .error "time data does not match format"
    | _, _ => .error "time data does not match format"
  | _ => .error "time data does not match format"

/-! ## Model Serving (`service.py`, `forecast` endpoint)

The fitted SARIMAX model is external; its `forecast` method is a parameter
that may raise (steps, optional exogenous matrix). -/

def ModelForecast : Type := Nat → Option (List (List ℚ)) → Except String (List ℚ)

structure ForecastInput where
  exog_data : List (List ℚ)
  steps : Option Nat
  last_timestamp : Option String

structure ForecastOutput where
  forecast : List ℚ
  forecast_dates : List String
  status : String
deriving DecidableEq, Repr

/-- The body of the `try:` block of the `forecast` endpoint, in source order:
read `exog_data` (empty list is falsy, giving no exogenous array), default
`steps` to 72, require a truthy `last_timestamp`, parse it, build the
forecast dates one hour apart starting one hour after it, then call the
model. -/
def forecastBody (model : ModelForecast) (input : ForecastInput) :
    Except String ForecastOutput :=
  if input.last_timestamp.getD "" = "" then
    .error "last_timestamp is required in the input data"
  else
    match parseDateTime (input.last_timestamp.getD "") with
    | .error e => .error e
    | .ok last_timestamp =>
      match model (input.steps.getD 72)
          (if input.exog_data.isEmpty then none else some input.exog_data) with
      | .error e => .error e
      | .ok predictions =>
        .ok ⟨predictions,
             (List.range (input.steps.getD 72)).map
               (fun i => fmtDateTime (addHours (i + 1) last_timestamp)),
             "success"⟩

/-- The `forecast` endpoint: the `except Exception` handler turns any raised
error into a structured result with empty lists and an `error: <msg>` status. -/
def forecast (model : ModelForecast) (input : ForecastInput) : ForecastOutput :=
  match forecastBody model input with
  | .ok out => out
  | .error e => ⟨[], [], "error: " ++ e⟩

/-! ## Model Training (`predict_next_3days.py`)

Each candidate fit either raises (that iteration `continue`s) or yields
validation metrics; `models_results` collects the successes in candidate
order; selection is `min(models_results.keys(), key=rmse)`; if no candidate
fitted, the script prints and `exit(1)`s, producing no artifact. -/

structure FitResult where
  modelId : Nat
  rmse : ℚ
deriving DecidableEq, Repr

/-- Python's `min` with a key: scan left to right, replace the current best
only on a strictly smaller key, so the first minimiser wins ties. -/
def bestModel : List FitResult → Option FitResult
  | [] => none
  | m :: ms => some (ms.foldl (fun best x => if x.rmse < best.rmse then x else best) m)

/-- The candidate loop: failed fits are skipped, successes kept in order. -/
def candidateResults (fits : List (Except String FitResult)) : List FitResult :=
  fits.filterMap Except.toOption

/-- Training outcome: the selected best model, or exit code 1 when
`models_results` is empty. -/
def trainingRun (fits : List (Except String FitResult)) : Except Nat FitResult :=
  match bestModel (candidateResults fits) with
  | none => .error 1
  | some b => .ok b

/-! ## Feature Selection (`feature_selection.py`)

A dataframe is a list of non-datetime column names plus rows of (datetime,
values aligned with the columns). Timestamps are hours as naturals. -/

structure FSFrame where
  cols : List String
  rows : List (Nat × List ℚ)

/-- The fixed projection in `feature_selection.py`. -/
def selected_features : List String :=
  ["datetime", "aqi_us_lag1", "aqi_us_lag12", "aqi_us_lag24", "pm2_5", "log_pm10",
   "scaled_humidity_%", "scaled_temp_C_scaled_log_windspeed_kph", "log_so2",
   "day_of_week", "scaled_temp_C", "scaled_temp_C_scaled_o3", "log_no2", "aqi_us"]

def colValue (cols : List String) (vals : List ℚ) (c : String) : ℚ :=
  match cols.indexOf? c with
  | some i => vals.getD i 0
  | none => 0

/-- `new_data[selected_features]`: raises a KeyError when a selected column is
absent from the frame, otherwise keeps the datetime plus the selected value
columns in selection order. -/
def selectColumns (cols : List String) (rows : List (Nat × List ℚ))
    (sel : List String) : Except String (List (Nat × List ℚ)) :=
  if (sel.filter (fun c => c != "datetime")).all (fun c => cols.contains c) then
    .ok (rows.map (fun r => (r.1, (sel.filter (fun c => c != "datetime")).map (colValue cols r.2))))
  else .error "KeyError"

/-- `drop_duplicates(subset='datetime', keep='last')`: a row survives when no
later row shares its datetime. -/
def dedupKeepLast {β : Type} : List (Nat × β) → List (Nat × β)
  | [] => []
  | r :: rs =>
    if rs.any (fun x => x.1 == r.1) then dedupKeepLast rs
    else r :: dedupKeepLast rs

/-- `feature_selection.py`: find the snapshot watermark (max datetime), take
the full table's rows strictly beyond it, project `selected_features`, append
to the snapshot and deduplicate keeping the last row per datetime. When there
are no such rows (including the NaN watermark of an empty snapshot, which
makes every comparison false) the snapshot is returned unchanged. -/
def featureSelection (full snap : FSFrame) : Except String FSFrame :=
  match (snap.rows.map (fun r => r.1)).max? with
  | none => .ok snap
  | some last_datetime =>
    if (full.rows.filter (fun r => last_datetime < r.1)).isEmpty then .ok snap
    else
      match selectColumns full.cols (full.rows.filter (fun r => last_datetime < r.1))
          selected_features with
      | .error e => .error e
      | .ok new_feature_data =>
        .ok ⟨snap.cols, dedupKeepLast (snap.rows ++ new_feature_data)⟩

/-! ## Feature-engineering output columns (`run_preprocessing.py`)

The set of columns the incremental feature-engineering stage writes: the raw
columns, `log_<c>` for the skewed columns, `scaled_<c>` for the scaling list,
the three lags, the calendar features, and the three interaction features. -/

def skewed_cols : List String := ["co", "pm2_5", "pm10", "precip_mm", "so2", "no2"]

def scale_cols : List String :=
  ["temp_C", "humidity_%", "windspeed_kph", "log_pm2_5", "log_pm10",
   "log_precip_mm", "log_co", "log_no2", "log_so2", "o3"]

def rawColumns : List String :=
  ["datetime", "temp_C", "humidity_%", "windspeed_kph", "precip_mm", "pm10",
   "pm2_5", "co", "no2", "so2", "o3", "aqi_us"]

/-- Non-datetime columns of `full_preprocessed_aqi_weather_data_with_all_features.csv`
as produced by `run_preprocessing.py`. -/
def featureEngineeredColumns : List String :=
  (rawColumns.filter (fun c => c != "datetime")) ++
  skewed_cols.map (fun c => "log_" ++ c) ++
  scale_cols.map (fun c => "scaled_" ++ c) ++
  ["aqi_us_lag1", "aqi_us_lag12", "aqi_us_lag24",
   "hour", "day_of_week", "is_weekend", "hour_sin", "hour_cos",
   "log_pm2_5_scaled_windspeed_kph", "scaled_temp_C_scaled_o3",
   "scaled_temp_C_scaled_windspeed_kph"]

/-! ## Ingestion (`fetch_daily_data.py`)

Rows are (datetime, payload) pairs; the payload type is abstract. The script
concatenates the existing table with the freshly fetched rows, sorts by
datetime, drops duplicate datetimes keeping the last row, raises when the
merge shrank below the existing row count, and sorts again before writing.

pandas `sort_values` uses the unstable quicksort by default, so the output
order among rows sharing a datetime is unspecified. The sort is therefore
embedded as a relation: any permutation of the input that is non-decreasing
in the datetime key is a possible result. -/

def leKey {β : Type} (a b : Nat × β) : Bool := decide (a.1 ≤ b.1)

/-- `s` is a possible result of `sort_values("datetime")` on `l`: a
permutation of `l` that is non-decreasing in the datetime key. Rows sharing
a datetime may appear in either order. -/
def SortedByDatetime {β : Type} (l s : List (Nat × β)) : Prop :=
  List.Perm s l ∧ s.Pairwise (fun a b => a.1 ≤ b.1)

/-- `out` is a possible table written by the ingestion merge: some sort of
the concatenation is deduplicated keeping the last row per datetime, the
shrink check does not raise, and some sort of the deduplicated table is
written. -/
def IngestResult {β : Type} (existing merged out : List (Nat × β)) : Prop :=
  ∃ s₁ s₂, SortedByDatetime (existing ++ merged) s₁ ∧
    ¬ ((dedupKeepLast s₁).length < existing.length) ∧
    SortedByDatetime (dedupKeepLast s₁) s₂ ∧ out = s₂

/-! ## Lag features (`run_preprocessing.py`)

Only the lag-construction block is embedded: it works on the (datetime,
aqi_us) projection of the previous and new rows, concatenates and sorts
them, shifts the target column by k positions, and left-merges the shifted
column back onto the new rows by datetime. -/

/-- pandas `shift(k)`: position i holds the value at position i - k, or null
for the first k positions. -/
def shift (k : Nat) (vals : List ℚ) : List (Option ℚ) :=
  ((List.replicate k (none : Option ℚ)) ++ vals.map some).take vals.length

/-- The combined lag table: previous and new (datetime, aqi_us) rows
concatenated and sorted by datetime, each paired with the shifted value at
its position. -/
def lagTable (k : Nat) (prev new : List (Nat × ℚ)) : List (Nat × Option ℚ) :=
  List.zipWith (fun r v => (r.1, v)) ((prev ++ new).mergeSort leKey)
    (shift k (((prev ++ new).mergeSort leKey).map (fun r => r.2)))

/-- The left-merge of the lag column back onto the new rows by datetime
(an unmatched datetime would yield null, like a left merge). -/
def buildLags (k : Nat) (prev new : List (Nat × ℚ)) : List (Nat × Option ℚ) :=
  new.map (fun r => (r.1,
    match (lagTable k prev new).find? (fun p => p.1 == r.1) with
    | some p => p.2
    | none => none))

/-! ## Data quality gate (`data_quality_check.py`)

The raw table: a parsed datetime column (hours, never missing since parsing
uses a fixed format and hard-fails otherwise) plus named numeric columns in
which a missing value is `none`. All named columns are numeric, matching the
CSV this script reads. Floats are embedded as exact rationals; pandas
comparisons against NaN are false, which the `Option` embedding mirrors by
ranging only over non-null values. -/

structure QFrame where
  datetime : List Nat
  cols : List (String × List (Option ℚ))

def nonnull (vals : List (Option ℚ)) : List ℚ := vals.filterMap id

def clipUpper (u : ℚ) (vals : List (Option ℚ)) : List (Option ℚ) :=
  vals.map (Option.map (fun x => min x u))

/-- The windspeed cap: when the column max exceeds 150, clip it at 150. -/
def capWindspeed (df : QFrame) : QFrame :=
  ⟨df.datetime, df.cols.map (fun c =>
    if c.1 == "windspeed_kph" then
      match (nonnull c.2).max? with
      | some m => if 150 < m then (c.1, clipUpper 150 c.2) else c
      | none => c
    else c)⟩

/-- `df[col].isnull().sum() / len(df) * 100`. -/
def missingPercent (n : Nat) (vals : List (Option ℚ)) : ℚ :=
  (vals.countP (fun v => v.isNone) : ℚ) / (n : ℚ) * 100

/-- The missing-value flag: some column has more than 10 percent missing.
The datetime column always has 0 percent missing (fixed-format parse), so
omitting it from the max cannot change the comparison with 10. -/
def flagMissing (df : QFrame) : Bool :=
  df.cols.any (fun c => 10 < missingPercent df.datetime.length c.2)

def expected_ranges : List (String × ℚ × ℚ) :=
  [("temp_C", 5, 45), ("humidity_%", 0, 100), ("windspeed_kph", 0, 150),
   ("precip_mm", 0, 10), ("pm10", 0, 500), ("pm2_5", 0, 150), ("co", 0, 2000),
   ("no2", 0, 100), ("so2", 0, 100), ("o3", 0, 300), ("aqi_us", 0, 500)]

def lookupCol (df : QFrame) (name : String) : Option (List (Option ℚ)) :=
  (df.cols.find? (fun c => c.1 == name)).map (fun c => c.2)

/-- `((df[col] < min) | (df[col] > max)).sum()`; NaN compares false. -/
def outOfRangeCount (vals : List (Option ℚ)) (lo hi : ℚ) : Nat :=
  (nonnull vals).countP (fun x => x < lo ∨ hi < x)

def flagRange (df : QFrame) : Bool :=
  expected_ranges.any (fun r =>
    ((lookupCol df r.1).map
      (fun vals => decide (0 < outOfRangeCount vals r.2.1 r.2.2))).getD false)

/-- pandas `Series.quantile` with linear interpolation over the sorted
non-null values. -/
def quantileQ (xs : List ℚ) (q : ℚ) : ℚ :=
  let s := xs.mergeSort (fun a b => decide (a ≤ b))
  if s.length = 0 then 0
  else
    let pos : ℚ := q * ((s.length : ℚ) - 1)
    let i : Nat := pos.floor.toNat
    (s.getD i 0) + (pos - (i : ℚ)) * (s.getD (i + 1) (s.getD i 0) - s.getD i 0)

/-- IQR outlier count: values outside [q1 - 1.5 iqr, q3 + 1.5 iqr]. -/
def outlierCount (vals : List (Option ℚ)) : Nat :=
  (nonnull vals).countP (fun x =>
    x < quantileQ (nonnull vals) (1/4) -
        3/2 * (quantileQ (nonnull vals) (3/4) - quantileQ (nonnull vals) (1/4)) ∨
    quantileQ (nonnull vals) (3/4) +
        3/2 * (quantileQ (nonnull vals) (3/4) - quantileQ (nonnull vals) (1/4)) < x)

/-- The outlier flag: some numeric column has more than 15 percent of the
row count flagged by the IQR rule. -/
def flagOutliers (df : QFrame) : Bool :=
  df.cols.any (fun c => (df.datetime.length : ℚ) * (15/100) < (outlierCount c.2 : ℚ))

/-- Successive differences of the sorted datetimes are all exactly one hour. -/
def diffsAllOne : List Nat → Bool
  | a :: b :: rest => (b - a == 1) && diffsAllOne (b :: rest)
  | _ => true

def flagTime (df : QFrame) : Bool :=
  !(diffsAllOne (df.datetime.mergeSort (fun a b => decide (a ≤ b))))

/-- `duplicated(subset='datetime', keep='first').sum()`: the number of rows
whose datetime already occurred, counted here as occurrences that recur
later (the totals agree: both count multiplicity minus one per value). -/
def dupCount : List Nat → Nat
  | [] => 0
  | x :: xs => (if x ∈ xs then 1 else 0) + dupCount xs

def flagDup (df : QFrame) : Bool :=
  decide (0 < dupCount (df.datetime.mergeSort (fun a b => decide (a ≤ b))))

/-- pandas adjusted skewness exceeds 1: with d the deviations from the mean
of the n non-null values, M2 and M3 their squared and cubed sums, the
statistic n sqrt(n-1) M3 / ((n-2) M2^(3/2)) is NaN for n < 3 (never > 1),
defined as 0 when M2 = 0, and otherwise > 1 iff M3 > 0 and
n^2 (n-1) M3^2 > (n-2)^2 M2^3 (squaring the positive inequality removes the
square roots). -/
def skewGtOne (vals : List (Option ℚ)) : Bool :=
  let xs := nonnull vals
  let n : ℚ := (xs.length : ℚ)
  if xs.length < 3 then false
  else
    let mean := xs.sum / n
    let m2 := (xs.map (fun x => (x - mean) ^ 2)).sum
    let m3 := (xs.map (fun x => (x - mean) ^ 3)).sum
    if m2 = 0 then false
    else decide (0 < m3) && decide ((n - 2) ^ 2 * m2 ^ 3 < n ^ 2 * (n - 1) * m3 ^ 2)

def features_to_check : List String :=
  ["temp_C", "humidity_%", "windspeed_kph", "precip_mm", "pm10", "pm2_5",
   "co", "no2", "so2", "o3"]

def expected_log_features : List String :=
  ["co", "pm2_5", "pm10", "precip_mm", "so2", "no2", "windspeed_kph"]

/-- Columns in `features_to_check` whose skewness exceeds the threshold. -/
def logCandidates (df : QFrame) : List String :=
  (df.cols.filter (fun c => features_to_check.contains c.1 && skewGtOne c.2)).map
    (fun c => c.1)

/-- Non-empty symmetric difference between observed and expected log
candidates. -/
def flagSkewSet (df : QFrame) : Bool :=
  (logCandidates df).any (fun c => !expected_log_features.contains c) ||
  expected_log_features.any (fun c => !(logCandidates df).contains c)

/-- `quality_issues = any([...])` over the six checks, computed on the table
after the windspeed cap. -/
def qualityIssues (df0 : QFrame) : Bool :=
  flagMissing (capWindspeed df0) || (flagRange (capWindspeed df0) ||
  (flagOutliers (capWindspeed df0) || (flagTime (capWindspeed df0) ||
  (flagDup (capWindspeed df0) || flagSkewSet (capWindspeed df0)))))

/-- `exit(1)` when the gate fails, exit 0 otherwise. -/
def qualityCheckExit (df0 : QFrame) : Nat :=
  if qualityIssues df0 then 1 else 0

/-! ## Spec-side predicates and concrete instances for the serving claims -/

/-- Each timestamp in the list parses back, and the next one is its
one-hour successor (the claim's "each timestamp exactly one hour after the
previous one"). -/
def consecutiveHours (l : List String) : Bool :=
  (l.zip l.tail).all
    (fun p => (parseDateTime p.1).toOption.map addHour == (parseDateTime p.2).toOption)

/-- A model stub whose `forecast` method always succeeds. -/
def okModel : ModelForecast := fun steps _ => .ok (List.replicate steps 0)

set_option maxRecDepth 40000

/-! ## Theorems -/

lemma forecastBody_ok_status (model : ModelForecast) (input : ForecastInput)
    (out : ForecastOutput) (h : forecastBody model input = .ok out) :
    out.status = "success" := by
  unfold forecastBody at h
  split at h
  · exact absurd h (by simp)
  · split at h
    · exact absurd h (by simp)
    · split at h
      · exact absurd h (by simp)
      · rw [Except.ok.injEq] at h
        rw [← h]

/-- C6: every runtime error in the forecast endpoint is caught: the result is
a structured record whose status is either "success" or the string "error: "
followed by the raised message, with empty forecast and date lists in the
error case; the endpoint is a total function (it never raises). -/
theorem forecast_errors_caught_structured (model : ModelForecast)
    (input : ForecastInput) :
    (forecast model input).status = "success" ∨
    ((forecast model input).forecast = [] ∧
     (forecast model input).forecast_dates = [] ∧
     ∃ m, (forecast model input).status = "error: " ++ m) := by
  unfold forecast
  rcases hb : forecastBody model input with e | out
  · exact Or.inr ⟨rfl, rfl, e, rfl⟩
  · exact Or.inl (forecastBody_ok_status model input out hb)

/-- C2: with steps = 72 and last_timestamp = "2025-07-13 23:00:00" (and a
model whose forecast call succeeds), the endpoint returns exactly 72 output
timestamps, the first "2025-07-14 00:00:00", the last "2025-07-16 23:00:00",
each one hour after the previous. -/
theorem forecast_horizon72_dates (model : ModelForecast) (vs : List ℚ)
    (hm : model 72 none = .ok vs) :
    (forecast model ⟨[], some 72, some "2025-07-13 23:00:00"⟩).forecast_dates.length = 72 ∧
    (forecast model ⟨[], some 72, some "2025-07-13 23:00:00"⟩).forecast_dates.head? =
      some "2025-07-14 00:00:00" ∧
    (forecast model ⟨[], some 72, some "2025-07-13 23:00:00"⟩).forecast_dates.getLast? =
      some "2025-07-16 23:00:00" ∧
    consecutiveHours (forecast model ⟨[], some 72, some "2025-07-13 23:00:00"⟩).forecast_dates = true := by
  have hb : forecastBody model ⟨[], some 72, some "2025-07-13 23:00:00"⟩ =
      (match model 72 none with
       | .error e => .error e
       | .ok predictions =>
         .ok ⟨predictions,
              (List.range 72).map (fun i => fmtDateTime (addHours (i + 1) ⟨2025, 7, 13, 23, 0, 0⟩)),
              "success"⟩) := rfl
  rw [hm] at hb
  have hd : (forecast model ⟨[], some 72, some "2025-07-13 23:00:00"⟩).forecast_dates =
      (List.range 72).map (fun i => fmtDateTime (addHours (i + 1) ⟨2025, 7, 13, 23, 0, 0⟩)) := by
    unfold forecast
    rw [hb]
  rw [hd]
  exact ⟨by decide, by decide, by decide, by decide⟩

/-- C2 witness: the theorem applied to a concrete always-succeeding model. -/
theorem forecast_horizon72_dates_witness :
    (forecast okModel ⟨[], some 72, some "2025-07-13 23:00:00"⟩).forecast_dates.length = 72 ∧
    (forecast okModel ⟨[], some 72, some "2025-07-13 23:00:00"⟩).forecast_dates.head? =
      some "2025-07-14 00:00:00" ∧
    (forecast okModel ⟨[], some 72, some "2025-07-13 23:00:00"⟩).forecast_dates.getLast? =
      some "2025-07-16 23:00:00" ∧
    consecutiveHours (forecast okModel ⟨[], some 72, some "2025-07-13 23:00:00"⟩).forecast_dates = true :=
  forecast_horizon72_dates okModel (List.replicate 72 0) rfl

/-- C7 counterexample: with last_timestamp omitted (and a model that would
succeed), the endpoint does not succeed and generates no timestamps: it
returns the structured error result, refuting the claimed wall-clock
fallback. -/
theorem forecast_missing_last_timestamp_cex :
    (forecast okModel ⟨[], some 72, none⟩).forecast_dates = [] ∧
    (forecast okModel ⟨[], some 72, none⟩).status =
      "error: last_timestamp is required in the input data" ∧
    (forecast okModel ⟨[], some 72, none⟩).status ≠ "success" := by
  refine ⟨rfl, rfl, by decide⟩

/-- C7 amended: for every model, steps value and exogenous payload, omitting
last_timestamp makes the forecast endpoint return the structured error
result with empty lists and status "error: last_timestamp is required in the
input data" (there is no wall-clock fallback in this endpoint). -/
theorem forecast_missing_last_timestamp_errors (model : ModelForecast)
    (exog : List (List ℚ)) (steps : Option Nat) :
    forecast model ⟨exog, steps, none⟩ =
      ⟨[], [], "error: last_timestamp is required in the input data"⟩ := rfl

/-- Auxiliary: the left fold implementing Python's `min(..., key=rmse)`
returns an element no worse than the accumulator and all scanned elements,
and strictly better than every element left of the one it settled on. -/
lemma foldl_best_spec (ms : List FitResult) (m : FitResult) :
    (∀ x ∈ ms, (ms.foldl (fun best x => if x.rmse < best.rmse then x else best) m).rmse ≤ x.rmse) ∧
    (ms.foldl (fun best x => if x.rmse < best.rmse then x else best) m).rmse ≤ m.rmse ∧
    ((ms.foldl (fun best x => if x.rmse < best.rmse then x else best) m) = m ∨
      ((ms.foldl (fun best x => if x.rmse < best.rmse then x else best) m).rmse < m.rmse ∧
        ∃ i, ∃ hi : i < ms.length,
          ms.get ⟨i, hi⟩ = ms.foldl (fun best x => if x.rmse < best.rmse then x else best) m ∧
          ∀ j, ∀ hj : j < ms.length, j < i →
            (ms.foldl (fun best x => if x.rmse < best.rmse then x else best) m).rmse <
              (ms.get ⟨j, hj⟩).rmse)) := by
  induction ms generalizing m with
  | nil => exact ⟨by simp, le_refl _, Or.inl rfl⟩
  | cons x xs ih =>
    simp only [List.foldl_cons]
    obtain ⟨ih1, ih2, ih3⟩ := ih (if x.rmse < m.rmse then x else m)
    by_cases hx : x.rmse < m.rmse
    · rw [if_pos hx] at ih1 ih2 ih3 ⊢
      refine ⟨?_, ?_, ?_⟩
      · intro y hy
        rcases List.mem_cons.mp hy with rfl | hy'
        · exact ih2
        · exact ih1 y hy'
      · exact le_of_lt (lt_of_le_of_lt ih2 hx)
      · right
        constructor
        · exact lt_of_le_of_lt ih2 hx
        · rcases ih3 with heq | ⟨hlt, i, hi, hget, hearly⟩
          · refine ⟨0, by simp, by simpa using heq.symm, ?_⟩
            intro j hj hj0
            omega
          · refine ⟨i + 1, by simpa using Nat.succ_lt_succ hi, by simpa using hget, ?_⟩
            intro j hj hji
            match j with
            | 0 => simpa using hlt
            | j' + 1 =>
              have hj' : j' < xs.length := by simpa using hj
              have := hearly j' hj' (by omega)
              simpa using this
    · rw [if_neg hx] at ih1 ih2 ih3 ⊢
      have hmx : m.rmse ≤ x.rmse := le_of_not_lt hx
      refine ⟨?_, ih2, ?_⟩
      · intro y hy
        rcases List.mem_cons.mp hy with rfl | hy'
        · exact le_trans ih2 hmx
        · exact ih1 y hy'
      · rcases ih3 with heq | ⟨hlt, i, hi, hget, hearly⟩
        · exact Or.inl heq
        · right
          refine ⟨hlt, i + 1, by simpa using Nat.succ_lt_succ hi, by simpa using hget, ?_⟩
          intro j hj hji
          match j with
          | 0 => simpa using lt_of_lt_of_le hlt hmx
          | j' + 1 =>
            have hj' : j' < xs.length := by simpa using hj
            have := hearly j' hj' (by omega)
            simpa using this

/-- C4: the selected model has the lowest validation RMSE among all fitted
candidates (whatever their order), it occurs in the candidate list, and every
candidate strictly before it has strictly larger RMSE — so on ties the
first-encountered candidate wins. -/
theorem bestModel_selects_lowest_rmse (ms : List FitResult) (b : FitResult)
    (h : bestModel ms = some b) :
    (∀ m ∈ ms, b.rmse ≤ m.rmse) ∧
    ∃ i, ∃ hi : i < ms.length, ms.get ⟨i, hi⟩ = b ∧
      ∀ j, ∀ hj : j < ms.length, j < i → b.rmse < (ms.get ⟨j, hj⟩).rmse := by
  match ms, h with
  | m :: tail, h =>
    have hb : tail.foldl (fun best x => if x.rmse < best.rmse then x else best) m = b := by
      simpa [bestModel] using h
    obtain ⟨h1, h2, h3⟩ := foldl_best_spec tail m
    rw [hb] at h1 h2 h3
    constructor
    · intro y hy
      rcases List.mem_cons.mp hy with rfl | hy'
      · exact h2
      · exact h1 y hy'
    · rcases h3 with heq | ⟨hlt, i, hi, hget, hearly⟩
      · refine ⟨0, by simp, by simpa using heq.symm, ?_⟩
        intro j hj hj0
        omega
      · refine ⟨i + 1, by simpa using Nat.succ_lt_succ hi, by simpa using hget, ?_⟩
        intro j hj hji
        match j with
        | 0 => simpa using hlt
        | j' + 1 =>
          have hj' : j' < tail.length := by simpa using hj
          have := hearly j' hj' (by omega)
          simpa using this

/-- C4 witness: with validation RMSEs 7 and 5 the candidate with RMSE 5 is
selected even though it is listed second. -/
theorem bestModel_selects_lowest_rmse_witness :
    (∀ m ∈ [(⟨1, 7⟩ : FitResult), ⟨2, 5⟩], (⟨2, 5⟩ : FitResult).rmse ≤ m.rmse) ∧
    ∃ i, ∃ hi : i < ([(⟨1, 7⟩ : FitResult), ⟨2, 5⟩]).length,
      ([(⟨1, 7⟩ : FitResult), ⟨2, 5⟩]).get ⟨i, hi⟩ = ⟨2, 5⟩ ∧
      ∀ j, ∀ hj : j < ([(⟨1, 7⟩ : FitResult), ⟨2, 5⟩]).length, j < i →
        (⟨2, 5⟩ : FitResult).rmse < (([(⟨1, 7⟩ : FitResult), ⟨2, 5⟩]).get ⟨j, hj⟩).rmse :=
  bestModel_selects_lowest_rmse [⟨1, 7⟩, ⟨2, 5⟩] ⟨2, 5⟩ (by decide)

/-- C5: a candidate whose fit raises is skipped without aborting the other
(an ok candidate always reaches the results list), and the run aborts with
exit code 1 — producing no artifact — exactly when both candidates fail. -/
theorem training_abort_iff_both_candidates_fail (r1 r2 : Except String FitResult) :
    (trainingRun [r1, r2] = .error 1 ↔ r1.toOption = none ∧ r2.toOption = none) ∧
    (∀ m, r1 = .ok m → m ∈ candidateResults [r1, r2]) ∧
    (∀ m, r2 = .ok m → m ∈ candidateResults [r1, r2]) := by
  rcases r1 with e1 | m1 <;> rcases r2 with e2 | m2 <;>
    simp [trainingRun, candidateResults, bestModel, Except.toOption]

lemma dedupKeepLast_sublist {β : Type} (l : List (Nat × β)) :
    List.Sublist (dedupKeepLast l) l := by
  induction l with
  | nil => exact List.Sublist.refl _
  | cons r rs ih =>
    unfold dedupKeepLast
    split
    · exact ih.cons r
    · exact ih.cons₂ r

lemma keys_nodup_dedupKeepLast {β : Type} (l : List (Nat × β)) :
    ((dedupKeepLast l).map (fun r => r.1)).Nodup := by
  induction l with
  | nil => simp [dedupKeepLast]
  | cons r rs ih =>
    unfold dedupKeepLast
    split
    · exact ih
    · rename_i hdup
      simp only [List.map_cons, List.nodup_cons]
      refine ⟨?_, ih⟩
      intro hmem
      rcases List.mem_map.mp hmem with ⟨x, hx, hkey⟩
      have hxrs : x ∈ rs := (dedupKeepLast_sublist rs).mem hx
      exact hdup (List.any_eq_true.mpr ⟨x, hxrs, by simpa using hkey⟩)

/-- The row kept for a datetime by `dedupKeepLast` is the last row of the
list carrying that datetime. -/
lemma mem_dedupKeepLast_of_getLast_filter {β : Type} (l : List (Nat × β))
    (k : Nat) (r : Nat × β) (hk : k ∈ l.map (fun x => x.1))
    (hl : (l.filter (fun x => x.1 == k)).getLast? = some r) :
    r ∈ dedupKeepLast l := by
  induction l with
  | nil => simp at hk
  | cons x xs ih =>
    by_cases hxk : x.1 = k
    · have hfil : (x :: xs).filter (fun y => y.1 == k) =
          x :: xs.filter (fun y => y.1 == k) := by
        simp [List.filter_cons, hxk]
      by_cases hdup : ∃ y ∈ xs, y.1 = k
      · have hne : xs.filter (fun y => y.1 == k) ≠ [] := by
          rcases hdup with ⟨y, hy, hyk⟩
          intro hnil
          have := List.filter_eq_nil_iff.mp hnil y hy
          simp [hyk] at this
        have hk' : k ∈ xs.map (fun y => y.1) := by
          rcases hdup with ⟨y, hy, hyk⟩
          exact List.mem_map.mpr ⟨y, hy, hyk⟩
        have hl' : (xs.filter (fun y => y.1 == k)).getLast? = some r := by
          rw [hfil] at hl
          rw [List.getLast?_cons] at hl
          rcases hgl : (xs.filter (fun y => y.1 == k)).getLast? with _ | a
          · exact absurd (List.getLast?_eq_none_iff.mp hgl) hne
          · rw [hgl] at hl
            rw [hgl]
            simpa using hl
        have hr := ih hk' hl'
        unfold dedupKeepLast
        split
        · exact hr
        · rename_i hnodup
          exfalso
          rcases hdup with ⟨y, hy, hyk⟩
          exact hnodup (List.any_eq_true.mpr ⟨y, hy, by simp [hyk, hxk]⟩)
      · have hfilnil : xs.filter (fun y => y.1 == k) = [] := by
          rw [List.filter_eq_nil_iff]
          intro y hy
          simp only [beq_iff_eq]
          exact fun hyk => hdup ⟨y, hy, by simpa using hyk⟩
        have hrx : r = x := by
          rw [hfil, hfilnil] at hl
          simpa using hl.symm
        unfold dedupKeepLast
        split
        · rename_i hany
          exfalso
          rcases List.any_eq_true.mp hany with ⟨y, hy, hyk⟩
          exact hdup ⟨y, hy, by simpa [hxk] using hyk⟩
        · rw [hrx]
          exact List.mem_cons_self _ _
    · have hfil : (x :: xs).filter (fun y => y.1 == k) =
          xs.filter (fun y => y.1 == k) := by
        simp [List.filter_cons, hxk]
      have hk' : k ∈ xs.map (fun y => y.1) := by
        rcases List.mem_map.mp hk with ⟨y, hy, hyk⟩
        rcases List.mem_cons.mp hy with rfl | hy'
        · exact absurd hyk hxk
        · exact List.mem_map.mpr ⟨y, hy', hyk⟩
      have hr := ih hk' (hfil ▸ hl)
      unfold dedupKeepLast
      split
      · exact hr
      · exact List.mem_cons_of_mem _ hr

/-- Every datetime of the input survives `dedupKeepLast`. -/
lemma key_mem_dedupKeepLast {β : Type} (l : List (Nat × β)) (k : Nat)
    (hk : k ∈ l.map (fun x => x.1)) :
    k ∈ (dedupKeepLast l).map (fun x => x.1) := by
  have hne : l.filter (fun x => x.1 == k) ≠ [] := by
    rcases List.mem_map.mp hk with ⟨x, hx, hkey⟩
    intro hnil
    have := List.filter_eq_nil_iff.mp hnil x hx
    simp [hkey] at this
  rcases hgl : (l.filter (fun x => x.1 == k)).getLast? with _ | r
  · exact absurd (List.getLast?_eq_none_iff.mp hgl) hne
  · have hmem := mem_dedupKeepLast_of_getLast_filter l k r hk hgl
    have hrf : r ∈ l.filter (fun x => x.1 == k) := List.mem_of_getLast?_eq_some hgl
    have hrk : r.1 = k := by simpa using (List.mem_filter.mp hrf).2
    exact List.mem_map.mpr ⟨r, hmem, hrk⟩

/-- One existing row and one freshly fetched row share hour 1; the unstable
sort may emit the fetched row first, and `keep='last'` then keeps the old
row, so the written table [(1, 0)] is a possible ingestion result. -/
lemma unstable_sort_keeps_old_row :
    IngestResult [(1, (0 : ℚ))] [(1, (7 : ℚ))] [(1, (0 : ℚ))] := by
  refine ⟨[(1, 7), (1, 0)], [(1, 0)], ⟨List.Perm.swap _ _ _, by decide⟩,
    by decide, ⟨List.Perm.refl _, by decide⟩, rfl⟩

/-- C9 counterexample: the claim's last-write-wins guarantee fails at a
concrete input. With existing table [(1, 0)] and fetched batch [(1, 7)],
the table [(1, 0)] — in which the freshly fetched row does not survive the
duplicated hour — is a possible written result of the ingestion merge,
because `sort_values`'s default quicksort does not fix the order of rows
sharing a datetime before `drop_duplicates(keep='last')`. -/
theorem ingest_last_write_wins_cex :
    IngestResult [(1, (0 : ℚ))] [(1, (7 : ℚ))] [(1, (0 : ℚ))] ∧
    ¬ ((1, (7 : ℚ)) ∈ ([(1, (0 : ℚ))] : List (Nat × ℚ))) :=
  ⟨unstable_sort_keeps_old_row, by decide⟩

/-- C9 amended: every possible written table of the ingestion merge has
unique datetime values sorted ascending (strictly increasing keys), contains
only rows of the concatenated input, and represents every input datetime —
so per duplicated hour exactly one of the colliding rows is kept, but which
one is unspecified (last-write-wins is not guaranteed by the unstable
sort). -/
theorem ingest_unique_sorted {β : Type} (existing merged out : List (Nat × β))
    (h : IngestResult existing merged out) :
    out.Pairwise (fun a b => a.1 < b.1) ∧
    (∀ e ∈ out, e ∈ existing ++ merged) ∧
    (∀ k, k ∈ (existing ++ merged).map (fun r => r.1) ↔
      k ∈ out.map (fun r => r.1)) := by
  obtain ⟨s₁, s₂, ⟨hp₁, hs₁⟩, hlen, ⟨hp₂, hs₂⟩, hout⟩ := h
  subst hout
  refine ⟨?_, ?_, ?_⟩
  · have hnd : (out.map (fun r => r.1)).Nodup :=
      (hp₂.map (fun r => r.1)).nodup_iff.mpr (keys_nodup_dedupKeepLast s₁)
    have hne : out.Pairwise (fun a b => a.1 ≠ b.1) := List.pairwise_map.mp hnd
    exact (hs₂.and hne).imp (fun hab => lt_of_le_of_ne hab.1 hab.2)
  · intro e he
    have h1 : e ∈ dedupKeepLast s₁ := hp₂.mem_iff.mp he
    have h2 : e ∈ s₁ := (dedupKeepLast_sublist s₁).mem h1
    exact hp₁.mem_iff.mp h2
  · intro k
    constructor
    · intro hk
      have h1 : k ∈ s₁.map (fun r => r.1) :=
        ((hp₁.map (fun r => r.1)).mem_iff).mpr hk
      have h2 := key_mem_dedupKeepLast s₁ k h1
      exact ((hp₂.map (fun r => r.1)).mem_iff).mpr h2
    · intro hk
      rcases List.mem_map.mp hk with ⟨e, he, rfl⟩
      have h1 : e ∈ dedupKeepLast s₁ := hp₂.mem_iff.mp he
      have h2 : e ∈ s₁ := (dedupKeepLast_sublist s₁).mem h1
      exact List.mem_map.mpr ⟨e, hp₁.mem_iff.mp h2, rfl⟩

/-- C9 witness: the amended theorem at the concrete possible outcome in
which the old row for the duplicated hour 1 was kept. -/
theorem ingest_unique_sorted_witness :
    ([(1, (0 : ℚ))] : List (Nat × ℚ)).Pairwise (fun a b => a.1 < b.1) ∧
    (∀ e ∈ ([(1, (0 : ℚ))] : List (Nat × ℚ)),
      e ∈ [(1, (0 : ℚ))] ++ [(1, (7 : ℚ))]) ∧
    (∀ k, k ∈ (([(1, (0 : ℚ))] ++ [(1, (7 : ℚ))] : List (Nat × ℚ)).map (fun r => r.1)) ↔
      k ∈ (([(1, (0 : ℚ))] : List (Nat × ℚ)).map (fun r => r.1))) :=
  ingest_unique_sorted [(1, 0)] [(1, 7)] [(1, 0)] unstable_sort_keeps_old_row

/-- C8: with watermark w (the snapshot's max datetime), (i) if every row of
the full table has datetime at most w the append is a no-op; (ii) otherwise,
when the selected columns are present, the result is the snapshot plus the
fixed projection of exactly the rows with datetime strictly beyond w,
deduplicated; (iii) deduplication keeps the last row per datetime. -/
theorem feature_selection_watermark_append (full snap : FSFrame) (w : Nat)
    (hmax : (snap.rows.map (fun r => r.1)).max? = some w) :
    ((∀ r ∈ full.rows, r.1 ≤ w) → featureSelection full snap = .ok snap) ∧
    ((full.rows.filter (fun r => w < r.1)) ≠ [] →
      (selected_features.filter (fun c => c != "datetime")).all
        (fun c => full.cols.contains c) = true →
      featureSelection full snap = .ok ⟨snap.cols,
        dedupKeepLast (snap.rows ++
          (full.rows.filter (fun r => w < r.1)).map
            (fun r => (r.1, (selected_features.filter (fun c => c != "datetime")).map
              (colValue full.cols r.2))))⟩) ∧
    (∀ (l : List (Nat × List ℚ)) (k : Nat) (r : Nat × List ℚ),
      k ∈ l.map (fun x => x.1) →
      (l.filter (fun x => x.1 == k)).getLast? = some r →
      r ∈ dedupKeepLast l) := by
  refine ⟨?_, ?_, fun l k r => mem_dedupKeepLast_of_getLast_filter l k r⟩
  · intro hle
    have hfil : full.rows.filter (fun r => w < r.1) = [] := by
      rw [List.filter_eq_nil_iff]
      intro r hr
      simpa using Nat.not_lt.mpr (hle r hr)
    simp [featureSelection, hmax, hfil]
  · intro hne hall
    have hemp : ¬ ((full.rows.filter (fun r => w < r.1)).isEmpty = true) := by
      simpa [List.isEmpty_iff] using hne
    have hsel : selectColumns full.cols (full.rows.filter (fun r => w < r.1))
        selected_features =
        .ok ((full.rows.filter (fun r => w < r.1)).map
          (fun r => (r.1, (selected_features.filter (fun c => c != "datetime")).map
            (colValue full.cols r.2)))) := by
      unfold selectColumns
      rw [if_pos hall]
    unfold featureSelection
    rw [hmax]
    dsimp only
    rw [if_neg hemp, hsel]

/-- C8 witness: a snapshot with watermark 3; the full table holds one stale
row (datetime 2) and one new row (datetime 5); all selected columns present. -/
theorem feature_selection_watermark_append_witness :
    ((∀ r ∈ (⟨selected_features.filter (fun c => c != "datetime"),
        [(2, []), (5, [])]⟩ : FSFrame).rows, r.1 ≤ 3 →
      featureSelection ⟨selected_features.filter (fun c => c != "datetime"), [(2, []), (5, [])]⟩
        ⟨selected_features.filter (fun c => c != "datetime"), [(3, [])]⟩ =
        .ok ⟨selected_features.filter (fun c => c != "datetime"), [(3, [])]⟩) →
      True) ∧
    featureSelection ⟨selected_features.filter (fun c => c != "datetime"), [(2, []), (5, [])]⟩
      ⟨selected_features.filter (fun c => c != "datetime"), [(3, [])]⟩ =
      .ok ⟨(⟨selected_features.filter (fun c => c != "datetime"), [(3, [])]⟩ : FSFrame).cols,
        dedupKeepLast ((⟨selected_features.filter (fun c => c != "datetime"),
            [(3, [])]⟩ : FSFrame).rows ++
          (((⟨selected_features.filter (fun c => c != "datetime"), [(2, []), (5, [])]⟩ :
              FSFrame).rows.filter (fun r => 3 < r.1)).map
            (fun r => (r.1, (selected_features.filter (fun c => c != "datetime")).map
              (colValue (⟨selected_features.filter (fun c => c != "datetime"),
                [(2, []), (5, [])]⟩ : FSFrame).cols r.2)))))⟩ :=
  ⟨fun _ => trivial,
    ((feature_selection_watermark_append
      ⟨selected_features.filter (fun c => c != "datetime"), [(2, []), (5, [])]⟩
      ⟨selected_features.filter (fun c => c != "datetime"), [(3, [])]⟩ 3
      (by decide)).2.1 (by decide) (by decide))⟩

/-- C10: the projection list of the snapshot append names the column
"scaled_temp_C_scaled_log_windspeed_kph", which the feature-engineering
stage never creates, so on any table with exactly the feature-engineered
columns the append raises a KeyError as soon as at least one row lies beyond
the watermark, and completes only when no row does. -/
theorem feature_selection_missing_column (full snap : FSFrame) (w : Nat)
    (hcols : full.cols = featureEngineeredColumns)
    (hmax : (snap.rows.map (fun r => r.1)).max? = some w) :
    ("scaled_temp_C_scaled_log_windspeed_kph" ∈ selected_features ∧
     "scaled_temp_C_scaled_log_windspeed_kph" ∉ featureEngineeredColumns) ∧
    ((full.rows.filter (fun r => w < r.1)) ≠ [] →
      featureSelection full snap = .error "KeyError") ∧
    ((full.rows.filter (fun r => w < r.1)) = [] →
      featureSelection full snap = .ok snap) := by
  refine ⟨by decide, ?_, ?_⟩
  · intro hne
    have hemp : ¬ ((full.rows.filter (fun r => w < r.1)).isEmpty = true) := by
      simpa [List.isEmpty_iff] using hne
    have hall : ¬ ((selected_features.filter (fun c => c != "datetime")).all
        (fun c => full.cols.contains c) = true) := by
      rw [hcols]
      decide
    have hsel : selectColumns full.cols (full.rows.filter (fun r => w < r.1))
        selected_features = .error "KeyError" := by
      unfold selectColumns
      rw [if_neg hall]
    unfold featureSelection
    rw [hmax]
    dsimp only
    rw [if_neg hemp, hsel]
  · intro hfil
    simp [featureSelection, hmax, hfil]

/-- C10 witness: a full table with exactly the feature-engineered columns and
one row beyond the snapshot watermark 0 makes the append raise KeyError. -/
theorem feature_selection_missing_column_witness :
    ("scaled_temp_C_scaled_log_windspeed_kph" ∈ selected_features ∧
     "scaled_temp_C_scaled_log_windspeed_kph" ∉ featureEngineeredColumns) ∧
    (((⟨featureEngineeredColumns, [(1, [])]⟩ : FSFrame).rows.filter (fun r => 0 < r.1)) ≠ [] →
      featureSelection ⟨featureEngineeredColumns, [(1, [])]⟩ ⟨featureEngineeredColumns, [(0, [])]⟩ =
        .error "KeyError") ∧
    (((⟨featureEngineeredColumns, [(1, [])]⟩ : FSFrame).rows.filter (fun r => 0 < r.1)) = [] →
      featureSelection ⟨featureEngineeredColumns, [(1, [])]⟩ ⟨featureEngineeredColumns, [(0, [])]⟩ =
        .ok ⟨featureEngineeredColumns, [(0, [])]⟩) :=
  feature_selection_missing_column ⟨featureEngineeredColumns, [(1, [])]⟩
    ⟨featureEngineeredColumns, [(0, [])]⟩ 0 rfl (by decide)

lemma shift_length (k : Nat) (vals : List ℚ) : (shift k vals).length = vals.length := by
  simp only [shift, List.length_take, List.length_append, List.length_replicate,
    List.length_map]
  omega

lemma shift_get (k : Nat) (vals : List ℚ) (i : Nat) (h : i < vals.length)
    (h2 : i < (shift k vals).length) :
    (shift k vals).get ⟨i, h2⟩ =
      if k ≤ i then some (vals.get ⟨i - k, Nat.lt_of_le_of_lt (Nat.sub_le i k) h⟩)
      else none := by
  simp only [shift, List.get_eq_getElem, List.getElem_take]
  by_cases hk : k ≤ i
  · rw [if_pos hk]
    rw [List.getElem_append_right (by simpa using hk)]
    simp
  · rw [if_neg hk]
    rw [List.getElem_append_left (by simp only [List.length_replicate]; omega)]
    simp

/-- In a table with strictly increasing keys, `find?` on the key of entry i
returns entry i. -/
lemma find?_key_get {γ : Type} (tbl : List (Nat × γ)) (i : Nat) (hi : i < tbl.length)
    (hnd : tbl.Pairwise (fun a b => a.1 < b.1)) :
    tbl.find? (fun p => p.1 == (tbl.get ⟨i, hi⟩).1) = some (tbl.get ⟨i, hi⟩) := by
  induction tbl generalizing i with
  | nil => simp at hi
  | cons x xs ih =>
    rcases List.pairwise_cons.mp hnd with ⟨hx, hxs⟩
    match i with
    | 0 => simp
    | i + 1 =>
      have hi' : i < xs.length := by simpa using hi
      have hg : (x :: xs).get ⟨i + 1, hi⟩ = xs.get ⟨i, hi'⟩ := rfl
      rw [hg]
      have hkey : x.1 < (xs.get ⟨i, hi'⟩).1 := hx _ (xs.get_mem i hi')
      rw [List.find?_cons_of_neg]
      · exact ih i hi' hxs
      · simp only [beq_iff_eq]
        omega

lemma pairwise_keys_zipWith {γ δ : Type} (l : List (Nat × γ)) (s : List δ)
    (h : l.Pairwise (fun a b => a.1 < b.1)) :
    (List.zipWith (fun r v => (r.1, v)) l s).Pairwise (fun a b => a.1 < b.1) := by
  rw [List.pairwise_iff_getElem] at h ⊢
  intro i j hi hj hij
  have hi2 : i < l.length := by
    rw [List.length_zipWith] at hi
    omega
  have hj2 : j < l.length := by
    rw [List.length_zipWith] at hj
    omega
  simp only [List.getElem_zipWith]
  exact h i j hi2 hj2 hij

/-- C1: over a chronologically sorted series split at any point m into
previous rows (the first m) and new rows (the rest), the lag-k feature
merged onto the row at global position i (any i at or beyond the split)
equals the aqi_us value at position i - k, or null when i < k. The
right-hand side does not mention m, so the value is identical for the full
batch (m = 0) and for any two-batch split, covering k = 1, 12, 24. -/
theorem lag_feature_batch_invariant (rows : List (Nat × ℚ)) (k m i : Nat)
    (hs : rows.Pairwise (fun a b => a.1 < b.1)) (hm : m ≤ i) (hi : i < rows.length) :
    ∃ him : i - m < (buildLags k (rows.take m) (rows.drop m)).length,
      (buildLags k (rows.take m) (rows.drop m)).get ⟨i - m, him⟩ =
        ((rows.get ⟨i, hi⟩).1,
         if k ≤ i then some ((rows.get ⟨i - k, Nat.lt_of_le_of_lt (Nat.sub_le i k) hi⟩).2)
         else none) := by
  have hcomb : (rows.take m ++ rows.drop m).mergeSort leKey = rows := by
    rw [List.take_append_drop]
    refine List.mergeSort_of_sorted ?_
    exact hs.imp (fun hab => by
      simp only [leKey, decide_eq_true_eq]
      omega)
  have hshlen : (shift k (rows.map (fun r => r.2))).length = rows.length := by
    rw [shift_length, List.length_map]
  have htbl : lagTable k (rows.take m) (rows.drop m) =
      List.zipWith (fun r v => (r.1, v)) rows (shift k (rows.map (fun r => r.2))) := by
    unfold lagTable
    rw [hcomb]
  have htbllen : (lagTable k (rows.take m) (rows.drop m)).length = rows.length := by
    rw [htbl, List.length_zipWith, hshlen, Nat.min_self]
  have hlen : (buildLags k (rows.take m) (rows.drop m)).length = rows.length - m := by
    unfold buildLags
    rw [List.length_map, List.length_drop]
  have him : i - m < (buildLags k (rows.take m) (rows.drop m)).length := by
    rw [hlen]
    omega
  refine ⟨him, ?_⟩
  have hidx : i < (lagTable k (rows.take m) (rows.drop m)).length := by
    rw [htbllen]
    exact hi
  have hsget : i < (shift k (rows.map (fun r => r.2))).length := by
    rw [hshlen]
    exact hi
  have htblget : (lagTable k (rows.take m) (rows.drop m)).get ⟨i, hidx⟩ =
      ((rows.get ⟨i, hi⟩).1, (shift k (rows.map (fun r => r.2))).get ⟨i, hsget⟩) := by
    simp only [htbl, List.get_eq_getElem, List.getElem_zipWith]
  have htblpw : (lagTable k (rows.take m) (rows.drop m)).Pairwise
      (fun a b => a.1 < b.1) := by
    rw [htbl]
    exact pairwise_keys_zipWith rows _ hs
  have hfind : (lagTable k (rows.take m) (rows.drop m)).find?
      (fun p => p.1 == (rows.get ⟨i, hi⟩).1) =
      some ((rows.get ⟨i, hi⟩).1, (shift k (rows.map (fun r => r.2))).get ⟨i, hsget⟩) := by
    have h0 := find?_key_get (lagTable k (rows.take m) (rows.drop m)) i hidx htblpw
    rw [htblget] at h0
    exact h0
  have hshift : (shift k (rows.map (fun r => r.2))).get ⟨i, hsget⟩ =
      if k ≤ i then some ((rows.get ⟨i - k, Nat.lt_of_le_of_lt (Nat.sub_le i k) hi⟩).2)
      else none := by
    rw [shift_get k (rows.map (fun r => r.2)) i (by rw [List.length_map]; exact hi)]
    by_cases hk : k ≤ i
    · rw [if_pos hk, if_pos hk]
      simp only [List.get_eq_getElem, List.getElem_map]
    · rw [if_neg hk, if_neg hk]
  unfold buildLags
  simp only [List.get_eq_getElem, List.getElem_map]
  have hdget : (rows.drop m)[i - m]? = some (rows.get ⟨i, hi⟩) := by
    rw [List.getElem?_drop]
    rw [show m + (i - m) = i from by omega]
    simp [List.get_eq_getElem, List.getElem?_eq_getElem hi]
  have hdget2 : ∀ hq : i - m < (rows.drop m).length,
      (rows.drop m)[i - m] = rows.get ⟨i, hi⟩ := by
    intro hq
    have := List.getElem?_eq_getElem hq
    rw [hdget] at this
    exact (Option.some.injEq _ _).mp this.symm
  rw [hdget2 (by rw [List.length_drop]; omega)]
  rw [hfind, hshift]
  rfl

/-- C1 witness: the series (0,10),(1,20),(2,30) split after two rows; the
second incremental batch's lag-1 feature for the row at position 2 equals
the value at position 1. -/
theorem lag_feature_batch_invariant_witness :
    ∃ him : 2 - 2 < (buildLags 1 (([(0, (10 : ℚ)), (1, 20), (2, 30)]).take 2)
        (([(0, (10 : ℚ)), (1, 20), (2, 30)]).drop 2)).length,
      (buildLags 1 (([(0, (10 : ℚ)), (1, 20), (2, 30)]).take 2)
        (([(0, (10 : ℚ)), (1, 20), (2, 30)]).drop 2)).get ⟨2 - 2, him⟩ =
        ((([(0, (10 : ℚ)), (1, 20), (2, 30)]).get ⟨2, by decide⟩).1,
         if 1 ≤ 2 then
           some ((([(0, (10 : ℚ)), (1, 20), (2, 30)]).get
             ⟨2 - 1, Nat.lt_of_le_of_lt (Nat.sub_le 2 1) (by decide)⟩).2)
         else none) :=
  lag_feature_batch_invariant [(0, 10), (1, 20), (2, 30)] 1 2 2
    (by decide) (by decide) (by decide)

/-- C3: the gate exits nonzero iff at least one of the six flags fires on
the checked table (after the windspeed cap, which precedes every check and
leaves the datetime column and null-ness untouched): a column with more than
10 percent missing values, a value outside a fixed domain range, an IQR
outlier count above 15 percent of the rows, sorted successive datetimes not
all one hour apart, a duplicate datetime, or observed log-transform
candidates (skew above 1.0) differing at all from the expected set. -/
theorem quality_gate_iff (df0 : QFrame) :
    qualityCheckExit df0 ≠ 0 ↔
      ((∃ c ∈ (capWindspeed df0).cols,
          10 < missingPercent (capWindspeed df0).datetime.length c.2) ∨
       (∃ r ∈ expected_ranges, ∃ vals, lookupCol (capWindspeed df0) r.1 = some vals ∧
          0 < outOfRangeCount vals r.2.1 r.2.2) ∨
       (∃ c ∈ (capWindspeed df0).cols,
          ((capWindspeed df0).datetime.length : ℚ) * (15/100) < (outlierCount c.2 : ℚ)) ∨
       ¬ (diffsAllOne ((capWindspeed df0).datetime.mergeSort
            (fun a b => decide (a ≤ b))) = true) ∨
       0 < dupCount ((capWindspeed df0).datetime.mergeSort
            (fun a b => decide (a ≤ b))) ∨
       (∃ c, (c ∈ logCandidates (capWindspeed df0) ∧ c ∉ expected_log_features) ∨
             (c ∈ expected_log_features ∧ c ∉ logCandidates (capWindspeed df0)))) := by
  have hexit : qualityCheckExit df0 ≠ 0 ↔ qualityIssues df0 = true := by
    unfold qualityCheckExit
    by_cases h : qualityIssues df0 = true
    · simp [h]
    · simp [h]
  rw [hexit]
  unfold qualityIssues
  simp only [Bool.or_eq_true]
  refine or_congr ?_ (or_congr ?_ (or_congr ?_ (or_congr ?_ (or_congr ?_ ?_))))
  · unfold flagMissing
    rw [List.any_eq_true]
    simp only [decide_eq_true_eq]
  · unfold flagRange
    rw [List.any_eq_true]
    constructor
    · rintro ⟨r, hr, hp⟩
      rcases hlk : lookupCol (capWindspeed df0) r.1 with _ | vals
      · rw [hlk] at hp
        simp at hp
      · rw [hlk] at hp
        exact ⟨r, hr, vals, hlk, by simpa using hp⟩
    · rintro ⟨r, hr, vals, hlk, hcount⟩
      refine ⟨r, hr, ?_⟩
      rw [hlk]
      simpa using hcount
  · unfold flagOutliers
    rw [List.any_eq_true]
    simp only [decide_eq_true_eq]
  · unfold flagTime
    simp
  · unfold flagDup
    simp
  · unfold flagSkewSet
    rw [Bool.or_eq_true, List.any_eq_true, List.any_eq_true]
    rw [exists_or]
    refine or_congr ?_ ?_
    · constructor
      · rintro ⟨c, hc, hnc⟩
        exact ⟨c, hc, by simpa using hnc⟩
      · rintro ⟨c, hc, hnc⟩
        exact ⟨c, hc, by simpa using hnc⟩
    · constructor
      · rintro ⟨c, hc, hnc⟩
        exact ⟨c, hc, by simpa using hnc⟩
      · rintro ⟨c, hc, hnc⟩
        exact ⟨c, hc, by simpa using hnc⟩

/-- C5 witness: the theorem at a failing first candidate and an ok second
candidate, plus at two failing candidates. -/
theorem training_abort_iff_both_candidates_fail_witness :
    ((trainingRun [.error "LinAlgError", .ok ⟨2, 5⟩] = .error 1 ↔
        (Except.error "LinAlgError" : Except String FitResult).toOption = none ∧
        (Except.ok (⟨2, 5⟩ : FitResult) : Except String FitResult).toOption = none) ∧
      (∀ m, (Except.error "LinAlgError" : Except String FitResult) = .ok m →
        m ∈ candidateResults [.error "LinAlgError", .ok ⟨2, 5⟩]) ∧
      (∀ m, (Except.ok (⟨2, 5⟩ : FitResult) : Except String FitResult) = .ok m →
        m ∈ candidateResults [.error "LinAlgError", .ok ⟨2, 5⟩])) :=
  training_abort_iff_both_candidates_fail (.error "LinAlgError") (.ok ⟨2, 5⟩)

end AQI
